import Mathlib

/-!
Verification of the tool-calling / streaming-delta orchestration core of the
`project_starter_kit` examples (`src/examples/10_llm_interaction/`).

The Python sources are shallowly embedded:
* `Json` with `Json.parse` models Python's `json.loads` on the JSON value
  grammar (objects, arrays, strings with escapes, numbers, booleans, null,
  and the `NaN`/`Infinity` constants accepted by the default decoder);
* Python dictionaries become association lists with Python's
  insert-or-overwrite assignment semantics (overwrite keeps position);
* optional attributes (`hasattr`/`getattr` probing) become `Option` fields,
  and Python truthiness on optional strings is modelled explicitly;
* tool callables become total functions `Json → Except String Json`
  (an `Except.error` models the callable raising, carrying `str(e)`);
* the external model call (`acompletion`/`aresponses`) is abstracted as an
  oracle mapping the round number to the provider's behaviour for that round.
-/

set_option maxRecDepth 4000

/-- A JSON value, as produced by Python's `json.loads`.  Numbers are kept
exactly as a decimal mantissa and a power-of-ten exponent; `nan` and
`infinity` model the `NaN` / `Infinity` / `-Infinity` constants the default
decoder accepts. -/
inductive Json where
  | null : Json
  | bool (b : Bool) : Json
  | num (mantissa : Int) (exp10 : Int) : Json
  | nan : Json
  | infinity (neg : Bool) : Json
  | str (s : String) : Json
  | arr (items : List Json) : Json
  | obj (members : List (String × Json)) : Json
deriving Repr, Inhabited

namespace Json

mutual

/-- Boolean equality on `Json` (the nested `List` occurrences preclude a
derived instance). -/
def beq : Json → Json → Bool
  | .null, .null => true
  | .bool a, .bool b => a == b
  | .num m e, .num m' e' => m == m' && e == e'
  | .nan, .nan => true
  | .infinity a, .infinity b => a == b
  | .str a, .str b => a == b
  | .arr xs, .arr ys => beqL xs ys
  | .obj xs, .obj ys => beqM xs ys
  | _, _ => false

/-- Boolean equality on lists of `Json`. -/
def beqL : List Json → List Json → Bool
  | [], [] => true
  | x :: xs, y :: ys => beq x y && beqL xs ys
  | _, _ => false

/-- Boolean equality on object member lists. -/
def beqM : List (String × Json) → List (String × Json) → Bool
  | [], [] => true
  | (k, v) :: xs, (k', v') :: ys => k == k' && beq v v' && beqM xs ys
  | _, _ => false

end

mutual

theorem beq_eq : ∀ a b, beq a b = true → a = b
  | a, b, h => by
      cases a <;> cases b <;>
        first
        | rfl
        | (simp only [beq] at h; exact congrArg Json.arr (beqL_eq _ _ h))
        | (simp only [beq] at h; exact congrArg Json.obj (beqM_eq _ _ h))
        | (simp [beq] at h; try simp [h])

theorem beqL_eq : ∀ as bs, beqL as bs = true → as = bs
  | [], [], _ => rfl
  | x :: xs, y :: ys, h => by
      rw [beqL, Bool.and_eq_true] at h
      rw [beq_eq x y h.1, beqL_eq xs ys h.2]
  | [], _ :: _, h => by simp [beqL] at h
  | _ :: _, [], h => by simp [beqL] at h

theorem beqM_eq : ∀ as bs, beqM as bs = true → as = bs
  | [], [], _ => rfl
  | (k, v) :: xs, (k', v') :: ys, h => by
      rw [beqM, Bool.and_eq_true, Bool.and_eq_true] at h
      obtain ⟨⟨h1, h2⟩, h3⟩ := h
      rw [beq_eq v v' h2, beqM_eq xs ys h3]
      simp at h1
      rw [h1]
  | [], _ :: _, h => by simp [beqM] at h
  | _ :: _, [], h => by simp [beqM] at h

end

mutual

theorem beq_refl : ∀ a, beq a a = true
  | .null => rfl
  | .bool a => by simp [beq]
  | .num m e => by simp [beq]
  | .nan => rfl
  | .infinity a => by simp [beq]
  | .str a => by simp [beq]
  | .arr xs => by rw [beq]; exact beqL_refl xs
  | .obj xs => by rw [beq]; exact beqM_refl xs

theorem beqL_refl : ∀ as, beqL as as = true
  | [] => rfl
  | x :: xs => by rw [beqL, Bool.and_eq_true]; exact ⟨beq_refl x, beqL_refl xs⟩

theorem beqM_refl : ∀ as, beqM as as = true
  | [] => rfl
  | (k, v) :: xs => by
      rw [beqM, Bool.and_eq_true, Bool.and_eq_true]
      exact ⟨⟨by simp, beq_refl v⟩, beqM_refl xs⟩

end

instance : DecidableEq Json := fun a b =>
  decidable_of_iff (beq a b = true)
    ⟨beq_eq a b, fun h => h ▸ beq_refl a⟩

/-- Insert-or-overwrite a key in an object member list, keeping the original
position of an existing key (Python `dict` assignment semantics, which the
decoder applies to duplicate keys: the last value wins). -/
def objInsert (kvs : List (String × Json)) (k : String) (v : Json) :
    List (String × Json) :=
  match kvs with
  | [] => [(k, v)]
  | (k', v') :: rest =>
      if k' = k then (k', v) :: rest else (k', v') :: objInsert rest k v

/-- Lookup in an object member list (first occurrence; members produced by
the decoder or by `objInsert` have distinct keys). -/
def objGet? (kvs : List (String × Json)) (k : String) : Option Json :=
  match kvs with
  | [] => none
  | (k', v) :: rest => if k' = k then some v else objGet? rest k

/-- JSON whitespace. -/
def isWs (c : Char) : Bool :=
  c = ' ' || c = '\t' || c = '\n' || c = '\r'

/-- Skip JSON whitespace. -/
def skipWs : List Char → List Char
  | [] => []
  | c :: cs => if isWs c then skipWs cs else c :: cs

/-- Decimal digit test. -/
def isDigit (c : Char) : Bool := '0' ≤ c ∧ c ≤ '9'

/-- Value of a decimal digit. -/
def digitVal (c : Char) : Nat := c.toNat - '0'.toNat

/-- Take a maximal run of decimal digits, returning their value, their count
and the rest of the input. -/
def takeDigits : List Char → Nat → Nat → Nat × Nat × List Char
  | [], acc, n => (acc, n, [])
  | c :: cs, acc, n =>
      if isDigit c then takeDigits cs (acc * 10 + digitVal c) (n + 1)
      else (acc, n, c :: cs)

/-- Hex digit value, if the character is one. -/
def hexVal? (c : Char) : Option Nat :=
  if isDigit c then some (digitVal c)
  else if 'a' ≤ c ∧ c ≤ 'f' then some (c.toNat - 'a'.toNat + 10)
  else if 'A' ≤ c ∧ c ≤ 'F' then some (c.toNat - 'A'.toNat + 10)
  else none

/-- Parse the body of a JSON string after the opening quote.  Strict mode:
raw control characters below U+0020 are rejected, escapes are the standard
JSON ones, `\\uXXXX` yields the code point (an invalid scalar value falls
back to `Char.ofNat`'s default). -/
def parseStrBody : List Char → String → Option (String × List Char)
  | [], _ => none
  | c :: cs, acc =>
      if c = '"' then some (acc, cs)
      else if c = '\\' then
        match cs with
        | [] => none
        | e :: cs' =>
            if e = '"' then parseStrBody cs' (acc.push '"')
            else if e = '\\' then parseStrBody cs' (acc.push '\\')
            else if e = '/' then parseStrBody cs' (acc.push '/')
            else if e = 'b' then parseStrBody cs' (acc.push (Char.ofNat 8))
            else if e = 'f' then parseStrBody cs' (acc.push (Char.ofNat 12))
            else if e = 'n' then parseStrBody cs' (acc.push '\n')
            else if e = 'r' then parseStrBody cs' (acc.push '\r')
            else if e = 't' then parseStrBody cs' (acc.push '\t')
            else if e = 'u' then
              match cs' with
              | h1 :: h2 :: h3 :: h4 :: cs'' =>
                  match hexVal? h1, hexVal? h2, hexVal? h3, hexVal? h4 with
                  | some a, some b, some c2, some d =>
                      parseStrBody cs''
                        (acc.push (Char.ofNat (((a * 16 + b) * 16 + c2) * 16 + d)))
                  | _, _, _, _ => none
              | _ => none
            else none
      else if c.toNat < 32 then none
      else parseStrBody cs (acc.push c)

/-- Parse a JSON number (after an optional leading `-` has been noted by the
caller): integer part without leading zeros, optional fraction, optional
exponent.  Returns mantissa (unsigned), power-of-ten exponent, rest. -/
def parseNumCore (cs : List Char) : Option (Nat × Int × List Char) :=
  match cs with
  | [] => none
  | c :: cs' =>
      if ¬ isDigit c then none
      else
        -- integer part: '0' alone, or a nonzero digit followed by digits
        let (ipart, rest1) :=
          if c = '0' then ((0 : Nat), cs')
          else
            let (v, _, r) := takeDigits cs' (digitVal c) 1
            (v, r)
        -- optional fraction
        let fracStep : Option (Nat × Nat × List Char) :=
          match rest1 with
          | '.' :: cs'' =>
              let (fv, fn, r) := takeDigits cs'' 0 0
              if fn = 0 then none else some (ipart * 10 ^ fn + fv, fn, r)
          | _ => some (ipart, 0, rest1)
        match fracStep with
        | none => none
        | some (mant, fdigits, rest2) =>
            -- optional exponent
            let expStep : Option (Int × List Char) :=
              match rest2 with
              | e :: cs'' =>
                  if e = 'e' ∨ e = 'E' then
                    match cs'' with
                    | '+' :: cs3 =>
                        let (ev, en, r) := takeDigits cs3 0 0
                        if en = 0 then none else some ((ev : Int), r)
                    | '-' :: cs3 =>
                        let (ev, en, r) := takeDigits cs3 0 0
                        if en = 0 then none else some (-(ev : Int), r)
                    | cs3 =>
                        let (ev, en, r) := takeDigits cs3 0 0
                        if en = 0 then none else some ((ev : Int), r)
                  else some (0, rest2)
              | [] => some (0, [])
            match expStep with
            | none => none
            | some (ex, rest3) => some (mant, ex - (fdigits : Int), rest3)

/-- Literal-prefix test, returning the rest of the input on success. -/
def dropLit : List Char → List Char → Option (List Char)
  | [], cs => some cs
  | _, [] => none
  | l :: ls, c :: cs => if c = l then dropLit ls cs else none

mutual

/-- Parse one JSON value from the input (leading whitespace allowed),
with fuel bounding the recursion depth. -/
def parseVal : Nat → List Char → Option (Json × List Char)
  | 0, _ => none
  | Nat.succ fuel, cs =>
      match skipWs cs with
      | [] => none
      | c :: cs' =>
          if c = '\x7b' then
            match skipWs cs' with
            | '\x7d' :: rest => some (Json.obj [], rest)
            | cs'' => parseMembers fuel cs'' []
          else if c = '[' then
            match skipWs cs' with
            | ']' :: rest => some (Json.arr [], rest)
            | cs'' => parseItems fuel cs'' []
          else if c = '"' then
            match parseStrBody cs' "" with
            | none => none
            | some (s, rest) => some (Json.str s, rest)
          else if c = '-' then
            match dropLit "Infinity".data cs' with
            | some rest => some (Json.infinity true, rest)
            | none =>
                match parseNumCore cs' with
                | none => none
                | some (m, e, rest) => some (Json.num (-(m : Int)) e, rest)
          else if isDigit c then
            match parseNumCore (c :: cs') with
            | none => none
            | some (m, e, rest) => some (Json.num (m : Int) e, rest)
          else if c = 't' then
            (dropLit "rue".data cs').map (fun rest => (Json.bool true, rest))
          else if c = 'f' then
            (dropLit "alse".data cs').map (fun rest => (Json.bool false, rest))
          else if c = 'n' then
            (dropLit "ull".data cs').map (fun rest => (Json.null, rest))
          else if c = 'N' then
            (dropLit "aN".data cs').map (fun rest => (Json.nan, rest))
          else if c = 'I' then
            (dropLit "nfinity".data cs').map
              (fun rest => (Json.infinity false, rest))
          else none

/-- Parse the members of an object after `{` (input positioned at the first
member, whitespace skipped). -/
def parseMembers (fuel : Nat) (cs : List Char) (acc : List (String × Json)) :
    Option (Json × List Char) :=
  match fuel with
  | 0 => none
  | Nat.succ fuel =>
      match cs with
      | '"' :: cs' =>
          match parseStrBody cs' "" with
          | none => none
          | some (k, rest) =>
              match skipWs rest with
              | ':' :: rest' =>
                  match parseVal fuel rest' with
                  | none => none
                  | some (v, rest'') =>
                      let acc' := objInsert acc k v
                      match skipWs rest'' with
                      | ',' :: rest3 => parseMembers fuel (skipWs rest3) acc'
                      | '\x7d' :: rest3 => some (Json.obj acc', rest3)
                      | _ => none
              | _ => none
      | _ => none

/-- Parse the items of an array after `[` (input positioned at the first
item). -/
def parseItems (fuel : Nat) (cs : List Char) (acc : List Json) :
    Option (Json × List Char) :=
  match fuel with
  | 0 => none
  | Nat.succ fuel =>
      match parseVal fuel cs with
      | none => none
      | some (v, rest) =>
          match skipWs rest with
          | ',' :: rest' => parseItems fuel rest' (acc ++ [v])
          | ']' :: rest' => some (Json.arr (acc ++ [v]), rest')
          | _ => none

end

/-- `Json.parse s` models `json.loads(s)`: `some v` when the whole input is
one JSON value (up to surrounding whitespace), `none` when `json.loads`
raises `JSONDecodeError`. -/
def parse (s : String) : Option Json :=
  match parseVal (2 * s.length + 2) s.data with
  | none => none
  | some (v, rest) => if skipWs rest = [] then some v else none

end Json

example : Json.parse "\x7b\"location\": \"NYC\"\x7d" =
    some (Json.obj [("location", Json.str "NYC")]) := by decide
example : Json.parse "not json" = none := by decide
example : Json.parse "" = none := by decide
example : Json.parse " [1, 2.5, true, null, \"a\\nb\"] " =
    some (Json.arr [Json.num 1 0, Json.num 25 (-1), Json.bool true,
      Json.null, Json.str "a\nb"]) := by decide
example : Json.parse "\x7b\"a\": 1, \"a\": 2\x7d" =
    some (Json.obj [("a", Json.num 2 0)]) := by decide
example : Json.parse "01" = none := by decide
example : Json.parse "-Infinity" = some (Json.infinity true) := by decide
example : Json.parse "\x7b\"x\": [], \"y\": \x7b\x7d\x7d" =
    some (Json.obj [("x", Json.arr []), ("y", Json.obj [])]) := by decide
example : Json.parse "\x7b\"expression\": \"2+2\"\x7d" =
    some (Json.obj [("expression", Json.str "2+2")]) := by decide
example : Json.parse "[1," = none := by decide
example : Json.parse "1e3" = some (Json.num 1 3) := by decide

/-! ### Python-side helpers

Optional attributes become `Option` fields; Python truthiness on strings and
the `a or b` idiom are modelled explicitly.  Python dictionaries keyed by
strings become association lists with insert-or-overwrite assignment. -/

/-- Python truthiness of an optional string: `None` and `""` are falsy. -/
def pyTruthy : Option String → Bool
  | none => false
  | some s => s ≠ ""

/-- Python `a or fallback` where `a` is an optional string and the fallback
is a plain string. -/
def pyOrDefault : Option String → String → String
  | some s, fb => if s = "" then fb else s
  | none, fb => fb

/-- Python `a or b` on two optional strings. -/
def pyOrElse (a b : Option String) : Option String :=
  if pyTruthy a then a else b

/-- Python `str()`/f-string rendering of an optional string (`None` prints as
`"None"`). -/
def pyStr : Option String → String
  | none => "None"
  | some s => s

/-- Python dict membership `k in d`. -/
def dictGet? {α : Type} : List (String × α) → String → Option α
  | [], _ => none
  | (k', v) :: rest, k => if k' = k then some v else dictGet? rest k

/-- Python dict assignment `d[k] = v`: overwrite in place if the key is
present (keeping its position), append otherwise. -/
def dictSet {α : Type} : List (String × α) → String → α → List (String × α)
  | [], k, v => [(k, v)]
  | (k', v') :: rest, k, v =>
      if k' = k then (k', v) :: rest else (k', v') :: dictSet rest k v

/-- A registered tool callable: total model of a Python callable invoked
with the parsed JSON arguments; `Except.error msg` models the callable
raising an exception whose `str()` is `msg`. -/
def ToolFn : Type := Json → Except String Json

/-! ### `03_tool_calling.py` — `ToolHandler` -/

namespace ToolCalling

/-- `ToolHandler.execute_tool`'s returned dict: either `{"error": msg}` or
`{"result": v}`. -/
inductive ExecToolRes where
  | errorRes (msg : String)
  | resultRes (v : Json)
deriving DecidableEq, Repr

/-- `ToolHandler`: `self.tools` (name → callable) and `self.tool_schemas`
(a plain list, appended on registration). -/
structure ToolHandler where
  tools : List (String × ToolFn)
  tool_schemas : List Json

/-- The fresh handler built by `ToolHandler.__init__`. -/
def ToolHandler.init : ToolHandler := ⟨[], []⟩

/-- `schema["function"]["name"]` when the schema has that shape (a missing
key raises `KeyError` in Python, modelled as `none`). -/
def schemaName? (schema : Json) : Option String :=
  match schema with
  | Json.obj kvs =>
      match Json.objGet? kvs "function" with
      | some (Json.obj fkvs) =>
          match Json.objGet? fkvs "name" with
          | some (Json.str n) => some n
          | _ => none
      | _ => none
  | _ => none

/-- `ToolHandler.register_tool(func, schema)`: key the callable under
`schema["function"]["name"]` (dict assignment, silently overwriting) and
append the schema to `tool_schemas`.  `none` models the `KeyError` raised
when the schema lacks that key. -/
def registerTool (h : ToolHandler) (fn : ToolFn) (schema : Json) :
    Option ToolHandler :=
  (schemaName? schema).map fun name =>
    { tools := dictSet h.tools name fn,
      tool_schemas := h.tool_schemas ++ [schema] }

/-- `ToolHandler.execute_tool(tool_name, arguments)`. -/
def executeTool (h : ToolHandler) (toolName : String) (args : Json) :
    ExecToolRes :=
  match dictGet? h.tools toolName with
  | none => .errorRes ("Unknown tool: " ++ toolName)
  | some fn =>
      match fn args with
      | .ok r => .resultRes r
      | .error e => .errorRes ("Tool execution failed: " ++ e)

/-- Modelled from the spec: `resolve(name) -> schema | NotFound`.  The source
keeps schemas only in the `tool_schemas` list it sends to the model and has
no retrieval operation, so resolving a name is retrieving the first stored
schema declaring that name. -/
def findSchema (h : ToolHandler) (name : String) : Option Json :=
  h.tool_schemas.find? (fun s => schemaName? s = some name)

end ToolCalling

/-! ### `04_streaming_with_tools.py` — `StreamingToolHandler` -/

namespace Streaming

/-- The `function` attribute of a streamed tool-call delta; `none` fields
model absent attributes (or `None` values, which the source treats the same
way via truthiness). -/
structure FuncDelta where
  name : Option String
  arguments : Option String
deriving DecidableEq, Repr

/-- One streamed tool-call fragment (`tool_call_delta`). -/
structure ToolCallDelta where
  id : Option String
  function : Option FuncDelta
deriving DecidableEq, Repr

/-- One entry of `self.current_tool_calls`: the dict
`{"id": ..., "name": ..., "arguments": ...}`. -/
structure CallInfo where
  id : String
  name : String
  arguments : String
deriving DecidableEq, Repr

/-- `self.current_tool_calls`: call identifier → accumulated info. -/
abbrev Buffer := List (String × CallInfo)

/-- The per-entry mutation of `_process_tool_call_delta` (the two `if`
statements updating the tracked dict): a truthy name token overwrites the
name, a truthy argument chunk is appended to the accumulated text. -/
def updInfo (info : CallInfo) (f : Option FuncDelta) : CallInfo :=
  match f with
  | none => info
  | some fd =>
      let i1 :=
        match fd.name with
        | some n => if n ≠ "" then { info with name := n } else info
        | none => info
      match fd.arguments with
      | some a => if a ≠ "" then { i1 with arguments := i1.arguments ++ a }
                  else i1
      | none => i1

/-- `StreamingToolHandler._process_tool_call_delta`: ignore fragments with a
falsy identifier; create the entry with empty name and empty argument text
on first sight; then apply the fragment's updates to that identifier's
entry. -/
def processToolCallDelta (buf : Buffer) (d : ToolCallDelta) : Buffer :=
  match d.id with
  | none => buf
  | some tid =>
      if tid = "" then buf
      else
        let buf1 :=
          if (dictGet? buf tid).isSome then buf
          else buf ++ [(tid, ⟨tid, "", ""⟩)]
        buf1.map fun p =>
          if p.1 = tid then (p.1, updInfo p.2 d.function) else p

/-- The reason recorded in a failed `TOOL_RESULT` event: the `str(e)` of the
caught exception, distinguishing a `json.loads` failure from the callable
raising. -/
inductive ExecErr where
  | parseError
  | raised (msg : String)
deriving DecidableEq, Repr

/-- Payload of a `TOOL_RESULT` event: `success: True` with the returned
value, or `success: False` with the error description. -/
inductive ToolOutcome where
  | ok (value : Json)
  | err (e : ExecErr)
deriving DecidableEq, Repr

/-- The stream events of the turn's tool-call path: `TOOL_CALL_END` and
`TOOL_RESULT` from `_execute_pending_tools`, plus the turn-terminal `END`
event and the `ERROR` event yielded by the `except` branch of
`stream_with_tools`. -/
inductive StreamEvent where
  | toolCallEnd (id name args : String)
  | toolResult (toolId toolName : String) (outcome : ToolOutcome)
  | streamEnd
  | streamError (msg : String)
deriving DecidableEq, Repr

/-- The events `_execute_pending_tools` emits for one pending call: always a
`TOOL_CALL_END`; then, only when the name resolves, a `TOOL_RESULT` —
failure if `json.loads` on the accumulated text raises or the callable
raises, success otherwise.  An unresolved name emits no result event. -/
def eventsForCall (tools : List (String × ToolFn)) (tid : String)
    (info : CallInfo) : List StreamEvent :=
  StreamEvent.toolCallEnd tid info.name info.arguments ::
    match dictGet? tools info.name with
    | none => []
    | some fn =>
        match Json.parse info.arguments with
        | none => [.toolResult tid info.name (.err .parseError)]
        | some args =>
            match fn args with
            | .ok r => [.toolResult tid info.name (.ok r)]
            | .error e => [.toolResult tid info.name (.err (.raised e))]

/-- `StreamingToolHandler._execute_pending_tools`: iterate over the pending
calls in insertion order, emit each call's events, then clear the buffer. -/
def executePendingTools (tools : List (String × ToolFn)) (buf : Buffer) :
    List StreamEvent × Buffer :=
  (buf.flatMap (fun p => eventsForCall tools p.1 p.2), [])

/-- How the upstream stream of one `stream_with_tools` turn ends: it is
exhausted normally, or it raises mid-iteration (after having delivered the
fragments processed so far). -/
inductive StreamEnd where
  | normal
  | raised (msg : String)
deriving DecidableEq, Repr

/-- The tool-call portion of one turn of `stream_with_tools`: fold every
delivered fragment into the buffer; then, on normal exhaustion, execute the
pending calls (skipped when the buffer is empty) and yield the terminal
`END` event — whereas when the stream raises, the `try`'s `except` branch
yields only the `ERROR` event: `_execute_pending_tools` is never reached
and the buffer is left as accumulated. -/
def runTurn (tools : List (String × ToolFn)) (buf0 : Buffer)
    (deltas : List ToolCallDelta) (ending : StreamEnd) :
    List StreamEvent × Buffer :=
  let buf := deltas.foldl processToolCallDelta buf0
  match ending with
  | .raised msg => ([.streamError msg], buf)
  | .normal =>
      if buf.isEmpty then ([.streamEnd], buf)
      else
        let step := executePendingTools tools buf
        (step.1 ++ [.streamEnd], step.2)

/-- `StreamingToolHandler.register_tool(name, func, schema)`. -/
structure StreamingToolHandler where
  tools : List (String × ToolFn)
  tool_schemas : List Json
  current_tool_calls : Buffer

/-- The fresh handler built by `StreamingToolHandler.__init__`. -/
def StreamingToolHandler.init : StreamingToolHandler := ⟨[], [], []⟩

/-- `StreamingToolHandler.register_tool`: dict assignment on `tools`
(silently overwriting an existing name) plus appending the schema. -/
def registerTool (h : StreamingToolHandler) (name : String) (fn : ToolFn)
    (schema : Json) : StreamingToolHandler :=
  { h with tools := dictSet h.tools name fn,
           tool_schemas := h.tool_schemas ++ [schema] }

/-- Reference value for the accumulator claims: the name tokens delivered by
a fragment sequence, keeping only truthy ones (the only ones the source
applies). -/
def namesOf (ds : List ToolCallDelta) : List String :=
  (ds.filterMap (fun d => d.function.bind (·.name))).filter (· ≠ "")

/-- Reference value: the argument-text chunks delivered by a fragment
sequence, in arrival order. -/
def argsOf (ds : List ToolCallDelta) : List String :=
  ds.filterMap (fun d => d.function.bind (·.arguments))

/-- Concatenation of chunks in arrival order. -/
def concatChunks (l : List String) : String := l.foldl (· ++ ·) ""

/-- The argument text accumulated for one identifier after processing a
fragment sequence from a fresh buffer. -/
def accumulatedArgs (ds : List ToolCallDelta) (tid : String) : String :=
  match dictGet? (ds.foldl processToolCallDelta []) tid with
  | some info => info.arguments
  | none => ""

/-- Number of `TOOL_CALL_END` events carrying one identifier. -/
def countEnds (events : List StreamEvent) (tid : String) : Nat :=
  (events.filter fun e =>
    match e with
    | .toolCallEnd i _ _ => i = tid
    | _ => false).length

/-- Number of `TOOL_RESULT` events. -/
def countResults (events : List StreamEvent) : Nat :=
  (events.filter fun e =>
    match e with
    | .toolResult _ _ _ => true
    | _ => false).length

end Streaming

/-! ### `05_stateful_conversation.py` — `StatefulConversationHandler`

The external `aresponses` call is abstracted as an oracle mapping the round
number (the value of `iteration` when the call is issued) to the provider's
behaviour: raising, or returning a response object with an optional `id` and
an optional `output` list (`none` models a response without a list-valued
`output` attribute).  Timestamps (`datetime.now()`) are external effects and
are omitted from the message model. -/

namespace Stateful

/-- The `function` attribute of a duck-typed tool call; `getattr(func,
'arguments', '{}')` defaults a missing attribute to `"{}"`. -/
structure FuncField where
  name : Option String
  arguments : Option String
deriving DecidableEq, Repr

/-- A duck-typed tool-call object as consumed by `_execute_tools`: each
field models one probed attribute (`none` = attribute absent or `None`). -/
structure RawToolCall where
  ty : Option String
  func : Option FuncField
  name : Option String
  arguments : Option String
  call_id : Option String
  id : Option String
deriving DecidableEq, Repr

/-- The attribute-probing cascade at the top of `_execute_tools`, yielding
(name, argument text, call identifier). -/
def extract (tc : RawToolCall) : Option String × String × Option String :=
  if tc.ty = some "function_call" then
    (tc.name, tc.arguments.getD "\x7b\x7d", tc.call_id)
  else
    match tc.func with
    | some f => (f.name, f.arguments.getD "\x7b\x7d", pyOrElse tc.call_id tc.id)
    | none => (tc.name, tc.arguments.getD "\x7b\x7d", pyOrElse tc.call_id tc.id)

/-- Error description of a failed execution (the `str(e)` recorded in the
result dict): a `json.loads` failure or the callable raising `msg`. -/
inductive ExecErr where
  | parseError
  | raised (msg : String)
deriving DecidableEq, Repr

/-- Shape of one entry of the `results` list built by `_execute_tools`:
the unknown-tool dict `{"call_id", "result": {"error": ...}}`, the success
dict (with `"success": True`, the parsed args and the value), or the caught
exception dict (`"success": False` with the error description). -/
inductive ExecOutcome where
  | unknownTool (name : Option String)
  | success (tool : String) (args value : Json)
  | failed (tool : String) (e : ExecErr)
deriving DecidableEq, Repr

/-- One element of the `results` list returned by `_execute_tools`. -/
structure ToolResult where
  call_id : String
  outcome : ExecOutcome
deriving DecidableEq, Repr

/-- One entry of `session.tool_calls_history` (timestamp omitted). -/
structure HistEntry where
  tool : String
  args : Json
  result : Json
deriving DecidableEq, Repr

/-- One entry of `session.messages` (timestamp omitted); `tool_calls` is the
assistant message's `tool_calls` field (`none` models `None`/absent). -/
structure Message where
  role : String
  content : String
  tool_calls : Option (List ToolResult)
deriving DecidableEq, Repr

/-- `ConversationState` for one session. -/
structure SessionState where
  session_id : String
  last_response_id : Option String
  messages : List Message
  tool_calls_history : List HistEntry
deriving DecidableEq, Repr

/-- A fresh `ConversationState(session_id=sid)`. -/
def SessionState.init (sid : String) : SessionState := ⟨sid, none, [], []⟩

/-- One step of `_execute_tools` for one duck-typed tool call, given the
number of results already accumulated (used by the `or`-fallback call
identifiers).  Returns the result dict and the history entry appended on
success. -/
def execOne (tools : List (String × ToolFn)) (numPrev : Nat)
    (tc : RawToolCall) : ToolResult × Option HistEntry :=
  let ex := extract tc
  let name := ex.1
  let argsJson := ex.2.1
  let callId := ex.2.2
  let unknown : ToolResult × Option HistEntry :=
    ({ call_id := pyOrDefault callId ("error_" ++ toString numPrev),
       outcome := .unknownTool name }, none)
  match name with
  | none => unknown
  | some n =>
      if n = "" then unknown
      else
        match dictGet? tools n with
        | none => unknown
        | some fn =>
            match (if argsJson = "" then some (Json.obj [])
                   else Json.parse argsJson) with
            | none =>
                ({ call_id := pyOrDefault callId ("error_" ++ toString numPrev),
                   outcome := .failed n .parseError }, none)
            | some args =>
                match fn args with
                | .ok v =>
                    ({ call_id := pyOrDefault callId
                         ("call_" ++ n ++ "_" ++ toString numPrev),
                       outcome := .success n args v },
                     some ⟨n, args, v⟩)
                | .error msg =>
                    ({ call_id := pyOrDefault callId
                         ("error_" ++ toString numPrev),
                       outcome := .failed n (.raised msg) }, none)

/-- The loop of `_execute_tools`, threading the accumulated results and the
session (whose `tool_calls_history` grows on success). -/
def execToolsGo (tools : List (String × ToolFn)) :
    List RawToolCall → List ToolResult → SessionState →
    List ToolResult × SessionState
  | [], acc, s => (acc, s)
  | tc :: rest, acc, s =>
      let step := execOne tools acc.length tc
      let s' :=
        match step.2 with
        | some he =>
            { s with tool_calls_history := s.tool_calls_history ++ [he] }
        | none => s
      execToolsGo tools rest (acc ++ [step.1]) s'

/-- `StatefulConversationHandler._execute_tools(tool_calls, session)`. -/
def executeTools (tools : List (String × ToolFn)) (tcs : List RawToolCall)
    (s : SessionState) : List ToolResult × SessionState :=
  execToolsGo tools tcs [] s

/-- One item of a parsed response's `content` list. -/
structure ContentItem where
  ty : Option String
  text : Option String
deriving DecidableEq, Repr

/-- One item of a parsed response's `output` list: its duck-typed tool-call
attributes (shared `type` attribute lives in `tc.ty`), plus the optional
`tool_calls` and `content` attributes probed on `message` items. -/
structure OutputItem where
  tc : RawToolCall
  tool_calls : Option (List RawToolCall)
  content : Option (List ContentItem)
deriving DecidableEq, Repr

/-- Python truthiness of the optional `tool_calls` list (`None` and the
empty list are falsy). -/
def pyTruthyList : Option (List RawToolCall) → Bool
  | none => false
  | some l => ¬ l.isEmpty

/-- The response-parsing loop of `process_message`: collect tool calls and
the last `output_text` seen in a `message` item. -/
def parseOutput (items : List OutputItem) :
    List RawToolCall × Option String :=
  items.foldl
    (fun acc item =>
      match item.tc.ty with
      | none => acc
      | some t =>
          if t = "tool_call" ∨ t = "function_call" then
            (acc.1 ++ [item.tc], acc.2)
          else if t = "message" ∧ pyTruthyList item.tool_calls then
            (acc.1 ++ item.tool_calls.getD [], acc.2)
          else if t = "message" ∧ item.content.isSome then
            (acc.1,
             (item.content.getD []).foldl
               (fun tx ci =>
                 if ci.ty = some "output_text" ∧ ci.text.isSome then ci.text
                 else tx)
               acc.2)
          else acc)
    ([], none)

/-- Behaviour of the external `aresponses` call on one round: it raises, or
returns a response whose `id` attribute is `rid` and whose `output`
attribute is `output` (`none` when absent or not a list). -/
inductive ModelResponse where
  | raises (msg : String)
  | ok (rid : Option String) (output : Option (List OutputItem))

/-- How the `while` loop of `process_message` was left: the iteration bound
was exhausted, a text response broke out, the no-further-actions fallthrough
broke out, or the caught exception broke out. -/
inductive LoopExit where
  | limitReached
  | gotText (t : String)
  | noAction
  | errored (msg : String)
deriving DecidableEq, Repr

/-- The loop state at exit. -/
structure LoopOut where
  exit : LoopExit
  iterations : Nat
  respId : Option String
  toolCallsMade : List ToolResult
  session : SessionState
deriving Repr

/-- The `while iteration < max_iterations` loop of `process_message`,
structurally recursing on the remaining budget (`max_iterations -
iteration`).  Each round issues one model call (`oracle iter'`). -/
def loopGo (oracle : Nat → ModelResponse) (tools : List (String × ToolFn)) :
    Nat → Nat → Option String → List ToolResult → SessionState → LoopOut
  | 0, iter, respId, made, s => ⟨.limitReached, iter, respId, made, s⟩
  | Nat.succ rem, iter, respId, made, s =>
      let iter' := iter + 1
      match oracle iter' with
      | .raises msg => ⟨.errored msg, iter', respId, made, s⟩
      | .ok rid output =>
          let s1 := { s with last_response_id := rid }
          match output with
          | none => ⟨.noAction, iter', rid, made, s1⟩
          | some items =>
              let parsed := parseOutput items
              if parsed.1 ≠ [] then
                let step := executeTools tools parsed.1 s1
                loopGo oracle tools rem iter' rid (made ++ step.1) step.2
              else if pyTruthy parsed.2 then
                ⟨.gotText (parsed.2.getD ""), iter', rid, made, s1⟩
              else ⟨.noAction, iter', rid, made, s1⟩

/-- `full_response` at the end of `process_message`: set by the text break
and the exception break, the empty initial value otherwise. -/
def fullResponseOf : LoopExit → String
  | .gotText t => t
  | .errored msg => "Error processing message: " ++ msg
  | .limitReached => ""
  | .noAction => ""

/-- The dict returned by `process_message`. -/
structure ProcessResult where
  response : String
  session_id : String
  iterations : Nat
  tool_calls : Nat
  response_id : Option String
deriving DecidableEq, Repr

/-- `StatefulConversationHandler.process_message`: append the user message,
run the model/tool loop, append the assistant message (carrying the tool
calls made, or `None` when there were none), and return the result dict. -/
def processMessage (oracle : Nat → ModelResponse)
    (tools : List (String × ToolFn)) (session : SessionState)
    (userMessage : String) (maxIterations : Nat) :
    ProcessResult × SessionState :=
  let s1 := { session with
    messages := session.messages ++ [⟨"user", userMessage, none⟩] }
  let lo := loopGo oracle tools maxIterations 0 session.last_response_id [] s1
  let fullResponse := fullResponseOf lo.exit
  let s2 := { lo.session with
    messages := lo.session.messages ++
      [⟨"assistant", fullResponse,
        if lo.toolCallsMade ≠ [] then some lo.toolCallsMade else none⟩] }
  ({ response := fullResponse,
     session_id := session.session_id,
     iterations := lo.iterations,
     tool_calls := lo.toolCallsMade.length,
     response_id := lo.respId }, s2)

/-- `StatefulConversationHandler.register_tool(name, func, schema)`: key the
callable under the given name; when the schema has a `"function"` member,
append its flattened `aresponses`-format conversion to `tool_schemas`
(`.get` defaults: `None` for name and description, `{}` for parameters). -/
structure StatefulHandler where
  tools : List (String × ToolFn)
  tool_schemas : List Json

/-- The fresh handler built by `StatefulConversationHandler.__init__`
(ignoring the empty sessions map). -/
def StatefulHandler.init : StatefulHandler := ⟨[], []⟩

/-- `StatefulConversationHandler.register_tool`. -/
def registerTool (h : StatefulHandler) (name : String) (fn : ToolFn)
    (schema : Json) : StatefulHandler :=
  let tools' := dictSet h.tools name fn
  match schema with
  | Json.obj kvs =>
      match Json.objGet? kvs "function" with
      | some (Json.obj fkvs) =>
          let ts := Json.obj
            [("type", Json.str "function"),
             ("name", (Json.objGet? fkvs "name").getD Json.null),
             ("description", (Json.objGet? fkvs "description").getD Json.null),
             ("parameters", (Json.objGet? fkvs "parameters").getD (Json.obj []))]
          { tools := tools', tool_schemas := h.tool_schemas ++ [ts] }
      | _ => { h with tools := tools' }
  | _ => { h with tools := tools' }

/-- Modelled from the spec: `resolve(name) -> schema | NotFound` — the
source stores converted schemas only in the `tool_schemas` list, so
resolving a name retrieves the first stored schema whose `"name"` member is
that name. -/
def findSchema (h : StatefulHandler) (name : String) : Option Json :=
  h.tool_schemas.find? (fun s =>
    match s with
    | Json.obj kvs => Json.objGet? kvs "name" = some (Json.str name)
    | _ => false)

/-- The per-call results of `_execute_tools` starting from `k` already
accumulated results (the accumulator length feeds the fallback call
identifiers). -/
def resultsFrom (tools : List (String × ToolFn)) :
    Nat → List RawToolCall → List ToolResult
  | _, [] => []
  | k, tc :: rest => (execOne tools k tc).1 :: resultsFrom tools (k + 1) rest

end Stateful

/-! ### Concrete fixtures used by the witness theorems -/

/-- A callable that returns `null`. -/
def wfConst : ToolFn := fun _ => Except.ok Json.null

/-- A callable modelling `calculate` succeeding with `4.0`. -/
def wfCalc : ToolFn := fun _ => Except.ok (Json.num 4 0)

/-- A callable that raises (`str(e) = "division by zero"`). -/
def wfRaise : ToolFn := fun _ => Except.error "division by zero"

/-- A two-tool registry. -/
def wtools : List (String × ToolFn) := [("get_weather", wfConst), ("calculate", wfCalc)]

/-- The `calculate` schema in the `03_tool_calling.py` format. -/
def calcSchema : Json :=
  Json.obj [("type", Json.str "function"),
            ("function", Json.obj
              [("name", Json.str "calculate"),
               ("description", Json.str "Evaluate a mathematical expression")])]

/-- The `get_user_info` schema in the `05_stateful_conversation.py` input
format. -/
def userInfoSchema : Json :=
  Json.obj [("function", Json.obj
    [("name", Json.str "get_user_info"),
     ("description", Json.str "Get information about a user"),
     ("parameters", Json.obj [("type", Json.str "object")])])]

/-- A handler that already has `calculate` registered. -/
def hCalc : ToolCalling.ToolHandler := ⟨[("calculate", wfCalc)], [calcSchema]⟩

/-- A registry with a succeeding and a raising callable. -/
def wtools3 : List (String × ToolFn) := [("calculate", wfCalc), ("boom", wfRaise)]

/-- A duck-typed tool call for `calculate` with identifier `c1`. -/
def tcCalc : Stateful.RawToolCall :=
  ⟨some "function_call", none, some "calculate",
   some "\x7b\"expression\": \"2+2\"\x7d", some "c1", none⟩

/-- A duck-typed tool call for the raising `boom` with identifier `c2`. -/
def tcBoom : Stateful.RawToolCall :=
  ⟨some "function_call", none, some "boom", some "\x7b\x7d", some "c2", none⟩

/-- A duck-typed tool call naming an unregistered tool. -/
def tcGhost : Stateful.RawToolCall :=
  ⟨some "function_call", none, some "ghost", some "\x7b\x7d", some "c9", none⟩

/-- A fresh demo session. -/
def sInit : Stateful.SessionState := Stateful.SessionState.init "demo"

/-- A response output item that is one `function_call` tool call. -/
def toolItem : Stateful.OutputItem :=
  ⟨⟨some "function_call", none, some "get_weather", some "\x7b\x7d", some "c1", none⟩,
   none, none⟩

/-- An oracle whose model always requests one tool call, forever. -/
def alwaysToolOracle : Nat → Stateful.ModelResponse :=
  fun _ => .ok (some "resp") (some [toolItem])

/-! ## Supporting lemmas -/

theorem dictGet?_dictSet_self {α : Type} (d : List (String × α)) (k : String)
    (v : α) : dictGet? (dictSet d k v) k = some v := by
  induction d with
  | nil => simp [dictSet, dictGet?]
  | cons p rest ih =>
      by_cases hp : p.1 = k <;> simp [dictSet, dictGet?, hp, ih]

theorem dictGet?_eq_none {α : Type} (d : List (String × α)) (k : String) :
    dictGet? d k = none ↔ k ∉ d.map Prod.fst := by
  induction d with
  | nil => simp [dictGet?]
  | cons p rest ih =>
      obtain ⟨k', v⟩ := p
      by_cases hp : k' = k
      · subst hp; simp [dictGet?]
      · simp [dictGet?, hp, ih, Ne.symm hp]

theorem pyOrDefault_truthy (a : Option String) (fb : String)
    (h : pyTruthy a) : pyOrDefault a fb = a.getD "" := by
  cases a with
  | none => simp [pyTruthy] at h
  | some s =>
      simp [pyTruthy] at h
      simp [pyOrDefault, h]

namespace Streaming

theorem updInfo_id (info : CallInfo) (f : Option FuncDelta) :
    (updInfo info f).id = info.id := by
  cases f with
  | none => rfl
  | some fd =>
      simp only [updInfo]
      cases fd.name <;> cases fd.arguments <;> (repeat' split) <;> rfl

theorem updInfo_name (info : CallInfo) (f : Option FuncDelta) :
    (updInfo info f).name =
      match f.bind (·.name) with
      | some n => if n ≠ "" then n else info.name
      | none => info.name := by
  cases f with
  | none => rfl
  | some fd =>
      simp only [updInfo, Option.bind]
      cases fd.name <;> cases fd.arguments <;> (repeat' split) <;> simp_all

theorem updInfo_arguments (info : CallInfo) (f : Option FuncDelta) :
    (updInfo info f).arguments =
      info.arguments ++ (f.bind (·.arguments)).getD "" := by
  cases f with
  | none => exact (String.append_empty _).symm
  | some fd =>
      simp only [updInfo, Option.bind]
      cases fd.name <;> cases fd.arguments <;> (repeat' split) <;>
        simp_all [String.append_empty]

/-- Processing a fragment whose identifier is already tracked updates just
that entry. -/
theorem processDelta_existing (tid : String) (htid : tid ≠ "")
    (info : CallInfo) (d : ToolCallDelta) (hid : d.id = some tid) :
    processToolCallDelta [(tid, info)] d = [(tid, updInfo info d.function)] := by
  simp [processToolCallDelta, hid, htid, dictGet?]

/-- Processing a fragment on a fresh buffer creates the entry with empty
name and empty argument text, then applies the fragment's updates. -/
theorem processDelta_new (tid : String) (htid : tid ≠ "")
    (d : ToolCallDelta) (hid : d.id = some tid) :
    processToolCallDelta [] d = [(tid, updInfo ⟨tid, "", ""⟩ d.function)] := by
  simp [processToolCallDelta, hid, htid, dictGet?]

/-- Folding same-identifier fragments over a singleton buffer is the fold of
the per-entry updates. -/
theorem foldl_processDelta_single (tid : String) (htid : tid ≠ "") :
    ∀ (ds : List ToolCallDelta), (∀ d ∈ ds, d.id = some tid) →
      ∀ info : CallInfo,
        ds.foldl processToolCallDelta [(tid, info)] =
          [(tid, ds.foldl (fun i d => updInfo i d.function) info)]
  | [], _, _ => rfl
  | d :: ds, h, info => by
      rw [List.foldl_cons,
        processDelta_existing tid htid info d (h d (List.mem_cons_self d ds)),
        List.foldl_cons]
      exact foldl_processDelta_single tid htid ds
        (fun x hx => h x (List.mem_cons_of_mem d hx)) _

/-- Folding a nonempty same-identifier fragment sequence from a fresh
buffer. -/
theorem foldl_processDelta_empty (tid : String) (htid : tid ≠ "")
    (ds : List ToolCallDelta) (hid : ∀ d ∈ ds, d.id = some tid)
    (hne : ds ≠ []) :
    ds.foldl processToolCallDelta [] =
      [(tid, ds.foldl (fun i d => updInfo i d.function) ⟨tid, "", ""⟩)] := by
  match ds, hne with
  | d :: rest, _ =>
      rw [List.foldl_cons, processDelta_new tid htid d (hid d (List.mem_cons_self d rest)),
        List.foldl_cons]
      exact foldl_processDelta_single tid htid rest
        (fun x hx => hid x (List.mem_cons_of_mem d hx)) _

theorem foldl_updInfo_id :
    ∀ (ds : List ToolCallDelta) (info : CallInfo),
      (ds.foldl (fun i d => updInfo i d.function) info).id = info.id
  | [], _ => rfl
  | d :: ds, info => by
      rw [List.foldl_cons, foldl_updInfo_id ds, updInfo_id]

/-- The accumulated name is the last truthy name token delivered (or the
starting name when none was). -/
theorem foldl_updInfo_name :
    ∀ (ds : List ToolCallDelta) (info : CallInfo),
      (ds.foldl (fun i d => updInfo i d.function) info).name =
        ((namesOf ds).getLast?).getD info.name
  | [], _ => rfl
  | d :: ds, info => by
      rw [List.foldl_cons, foldl_updInfo_name ds]
      have hns : namesOf (d :: ds) =
          (match d.function.bind (·.name) with
           | some n => if n ≠ "" then [n] else []
           | none => []) ++ namesOf ds := by
        simp only [namesOf, List.filterMap_cons]
        cases d.function.bind (·.name) with
        | none => simp
        | some n => by_cases hn : n = "" <;> simp [hn]
      rw [hns, updInfo_name, List.getLast?_append]
      cases hlast : (namesOf ds).getLast? with
      | some n => simp
      | none =>
          have : namesOf ds = [] := by
            cases h : namesOf ds with
            | nil => rfl
            | cons a l => rw [h] at hlast; simp [List.getLast?] at hlast
          cases d.function.bind (·.name) with
          | none => simp
          | some n => by_cases hn : n = "" <;> simp [hn]

/-- Folding a string fold with a nonempty seed. -/
theorem foldl_append_init :
    ∀ (l : List String) (s : String), l.foldl (· ++ ·) s = s ++ concatChunks l
  | [], s => (String.append_empty s).symm
  | a :: l, s => by
      rw [List.foldl_cons, foldl_append_init l (s ++ a)]
      have : concatChunks (a :: l) = a ++ concatChunks l := by
        rw [concatChunks, List.foldl_cons, foldl_append_init l ("" ++ a),
          String.empty_append]
      rw [this, String.append_assoc]

/-- The entry-update map of `processToolCallDelta` does not change the
buffer's keys. -/
theorem keys_map_upd (tid : String) (f : Option FuncDelta) (b : Buffer) :
    ((b.map fun p => if p.1 = tid then (p.1, updInfo p.2 f) else p).map
      Prod.fst) = b.map Prod.fst := by
  induction b with
  | nil => rfl
  | cons p rest ih =>
      by_cases hp : p.1 = tid <;> simp [hp, ih]

/-- Processing a fragment preserves distinctness of the tracked
identifiers. -/
theorem processDelta_nodup (buf : Buffer) (d : ToolCallDelta)
    (h : (buf.map Prod.fst).Nodup) :
    (((processToolCallDelta buf d).map Prod.fst)).Nodup := by
  unfold processToolCallDelta
  cases hid : d.id with
  | none => exact h
  | some tid =>
      by_cases htid : tid = ""
      · simpa [htid] using h
      · simp only [htid, ite_false, if_false]
        cases hq : dictGet? buf tid with
        | some v =>
            simpa only [hq, Option.isSome_some, ite_true, if_true,
              keys_map_upd] using h
        | none =>
            have hnotin := (dictGet?_eq_none buf tid).mp hq
            simp only [hq, Option.isSome_none, Bool.false_eq_true,
              ite_false, if_false, keys_map_upd]
            rw [List.map_append, List.map_cons, List.map_nil,
              List.nodup_append]
            refine ⟨h, List.nodup_singleton tid, ?_⟩
            intro a ha hb
            rw [List.mem_singleton] at hb
            subst hb
            exact hnotin ha

/-- Identifiers tracked after a whole fragment sequence are distinct. -/
theorem foldl_processDelta_nodup (ds : List ToolCallDelta) :
    ∀ buf : Buffer, (buf.map Prod.fst).Nodup →
      (((ds.foldl processToolCallDelta buf).map Prod.fst)).Nodup := by
  induction ds with
  | nil => exact fun _ h => h
  | cons d ds ih =>
      intro buf h
      exact ih _ (processDelta_nodup buf d h)

theorem countEnds_append (e1 e2 : List StreamEvent) (tid : String) :
    countEnds (e1 ++ e2) tid = countEnds e1 tid + countEnds e2 tid := by
  simp [countEnds, List.filter_append]

/-- Each pending call emits exactly one `TOOL_CALL_END`, carrying its own
identifier. -/
theorem countEnds_eventsForCall (tools : List (String × ToolFn))
    (tid' : String) (info : CallInfo) (tid : String) :
    countEnds (eventsForCall tools tid' info) tid =
      if tid' = tid then 1 else 0 := by
  simp only [countEnds, eventsForCall]
  cases hg : dictGet? tools info.name with
  | none => by_cases h : tid' = tid <;> simp [h]
  | some fn =>
      cases hp : Json.parse info.arguments with
      | none => by_cases h : tid' = tid <;> simp [h]
      | some args =>
          cases hf : fn args with
          | ok r => by_cases h : tid' = tid <;> simp [hf, h]
          | error e => by_cases h : tid' = tid <;> simp [hf, h]

/-- `TOOL_CALL_END` events for one identifier, over a whole buffer, count
the buffer's occurrences of that identifier. -/
theorem countEnds_flatMap (tools : List (String × ToolFn)) (buf : Buffer)
    (tid : String) :
    countEnds (buf.flatMap fun p => eventsForCall tools p.1 p.2) tid =
      (buf.map Prod.fst).count tid := by
  induction buf with
  | nil => simp [countEnds]
  | cons p rest ih =>
      rw [List.flatMap_cons, countEnds_append, countEnds_eventsForCall, ih,
        List.map_cons, List.count_cons]
      by_cases hp : p.1 = tid <;> simp [hp, Nat.add_comm]

/-- A resolvable pending call emits exactly one `TOOL_RESULT` event, an
unresolvable one emits none. -/
theorem countResults_eventsForCall (tools : List (String × ToolFn))
    (tid : String) (info : CallInfo) :
    countResults (eventsForCall tools tid info) =
      if (dictGet? tools info.name).isSome then 1 else 0 := by
  simp only [countResults, eventsForCall]
  cases hg : dictGet? tools info.name with
  | none => simp
  | some fn =>
      cases hp : Json.parse info.arguments with
      | none => simp
      | some args => cases hf : fn args <;> simp [hf]

theorem countResults_append (e1 e2 : List StreamEvent) :
    countResults (e1 ++ e2) = countResults e1 + countResults e2 := by
  simp [countResults, List.filter_append]

/-- The accumulated argument text is the concatenation of the delivered
chunks appended to the starting text. -/
theorem foldl_updInfo_arguments :
    ∀ (ds : List ToolCallDelta) (info : CallInfo),
      (ds.foldl (fun i d => updInfo i d.function) info).arguments =
        (argsOf ds).foldl (· ++ ·) info.arguments
  | [], _ => rfl
  | d :: ds, info => by
      rw [List.foldl_cons, foldl_updInfo_arguments ds]
      have has : argsOf (d :: ds) =
          (match d.function.bind (·.arguments) with
           | some a => [a]
           | none => []) ++ argsOf ds := by
        simp only [argsOf, List.filterMap_cons]
        cases d.function.bind (·.arguments) <;> simp
      rw [has, updInfo_arguments]
      cases d.function.bind (·.arguments) with
      | none => simp [String.append_empty]
      | some a => simp

end Streaming

namespace Stateful

/-- Every branch of `execOne` builds its result's call identifier by the
`call_id or fallback` idiom. -/
theorem execOne_callid (tools : List (String × ToolFn)) (k : Nat)
    (tc : RawToolCall) :
    ∃ fb, (execOne tools k tc).1.call_id = pyOrDefault (extract tc).2.2 fb := by
  simp only [execOne]
  repeat' split
  all_goals exact ⟨_, rfl⟩

/-- With a truthy extracted call identifier, the result's identifier is that
identifier. -/
theorem execOne_callid_truthy (tools : List (String × ToolFn)) (k : Nat)
    (tc : RawToolCall) (h : pyTruthy (extract tc).2.2) :
    (execOne tools k tc).1.call_id = ((extract tc).2.2).getD "" := by
  obtain ⟨fb, hfb⟩ := execOne_callid tools k tc
  rw [hfb, pyOrDefault_truthy _ _ h]

/-- With a truthy extracted call identifier the result does not depend on
how many results were already accumulated. -/
theorem execOne_index_free (tools : List (String × ToolFn)) (k k' : Nat)
    (tc : RawToolCall) (h : pyTruthy (extract tc).2.2) :
    (execOne tools k tc).1 = (execOne tools k' tc).1 := by
  cases hex : extract tc with
  | mk nm rest =>
      obtain ⟨aj, cid⟩ := rest
      rw [hex] at h
      simp only at h
      simp only [execOne, hex]
      cases nm with
      | none => simp [pyOrDefault_truthy _ _ h]
      | some n =>
          by_cases hn : n = ""
          · simp [hn, pyOrDefault_truthy _ _ h]
          · cases hg : dictGet? tools n with
            | none => simp [hn, hg, pyOrDefault_truthy _ _ h]
            | some fn =>
                cases hparse : (if aj = "" then some (Json.obj [])
                    else Json.parse aj) with
                | none => simp [hn, hg, hparse, pyOrDefault_truthy _ _ h]
                | some args =>
                    cases hf : fn args with
                    | ok v =>
                        simp [hn, hg, hparse, hf, pyOrDefault_truthy _ _ h]
                    | error m =>
                        simp [hn, hg, hparse, hf, pyOrDefault_truthy _ _ h]

/-- The results of the `_execute_tools` loop are the per-call results, with
indices starting at the accumulator's length. -/
theorem execToolsGo_results (tools : List (String × ToolFn)) :
    ∀ (tcs : List RawToolCall) (acc : List ToolResult) (s : SessionState),
      (execToolsGo tools tcs acc s).1 =
        acc ++ resultsFrom tools acc.length tcs
  | [], acc, s => by simp [execToolsGo, resultsFrom]
  | tc :: rest, acc, s => by
      rw [execToolsGo, execToolsGo_results tools rest _ _, resultsFrom]
      simp [List.append_assoc]

theorem resultsFrom_length (tools : List (String × ToolFn)) :
    ∀ (k : Nat) (tcs : List RawToolCall),
      (resultsFrom tools k tcs).length = tcs.length
  | _, [] => rfl
  | k, _ :: rest => by
      rw [resultsFrom, List.length_cons, resultsFrom_length tools (k + 1) rest,
        List.length_cons]

/-- With truthy call identifiers throughout, the per-call results are a
plain map (no cross-call dependence). -/
theorem resultsFrom_map (tools : List (String × ToolFn)) :
    ∀ (tcs : List RawToolCall) (k : Nat),
      (∀ tc ∈ tcs, pyTruthy (extract tc).2.2) →
      resultsFrom tools k tcs = tcs.map (fun tc => (execOne tools 0 tc).1)
  | [], _, _ => rfl
  | tc :: rest, k, h => by
      rw [resultsFrom, List.map_cons,
        execOne_index_free tools k 0 tc (h tc (List.mem_cons_self tc rest)),
        resultsFrom_map tools rest (k + 1)
          (fun x hx => h x (List.mem_cons_of_mem tc hx))]

/-- The result at position `i` is the per-call result of the `i`-th request
alone (its fallback identifiers depending only on the position): no result
depends on a sibling request or on a sibling's outcome. -/
theorem resultsFrom_get? (tools : List (String × ToolFn)) :
    ∀ (tcs : List RawToolCall) (k i : Nat),
      (resultsFrom tools k tcs)[i]? =
        (tcs[i]?).map (fun tc => (execOne tools (k + i) tc).1)
  | [], _, i => by simp [resultsFrom]
  | tc :: rest, k, 0 => by simp [resultsFrom]
  | tc :: rest, k, Nat.succ i => by
      simp only [resultsFrom, List.getElem?_cons_succ]
      rw [resultsFrom_get? tools rest (k + 1) i]
      have harith : k + 1 + i = k + (i + 1) := by omega
      rw [harith]

/-- `_execute_tools` only appends to `tool_calls_history`: the session's
messages, identifier and continuation cursor are untouched. -/
theorem execToolsGo_session (tools : List (String × ToolFn)) :
    ∀ (tcs : List RawToolCall) (acc : List ToolResult) (s : SessionState),
      (execToolsGo tools tcs acc s).2.messages = s.messages ∧
      (execToolsGo tools tcs acc s).2.session_id = s.session_id ∧
      (execToolsGo tools tcs acc s).2.last_response_id = s.last_response_id
  | [], _, _ => ⟨rfl, rfl, rfl⟩
  | tc :: rest, acc, s => by
      rw [execToolsGo]
      cases hstep : (execOne tools acc.length tc).2 with
      | none =>
          simp only [hstep]
          exact execToolsGo_session tools rest _ _
      | some he =>
          simp only [hstep]
          exact execToolsGo_session tools rest _ _

/-- The conversation loop never edits the session's message list (messages
are appended only outside the loop). -/
theorem loopGo_messages (oracle : Nat → ModelResponse)
    (tools : List (String × ToolFn)) :
    ∀ (rem iter : Nat) (rid : Option String) (made : List ToolResult)
      (s : SessionState),
      (loopGo oracle tools rem iter rid made s).session.messages = s.messages
  | 0, _, _, _, _ => rfl
  | Nat.succ m, iter, rid, made, s => by
      cases horacle : oracle (iter + 1) with
      | raises msg => simp only [loopGo, horacle]
      | ok rid' output =>
          cases output with
          | none => simp only [loopGo, horacle]
          | some items =>
              by_cases hp : (parseOutput items).1 = []
              · simp only [loopGo, horacle]
                rw [if_neg (by simp [hp])]
                split <;> rfl
              · simp only [loopGo, horacle]
                rw [if_pos hp]
                rw [loopGo_messages oracle tools m _ _ _ _]
                exact (execToolsGo_session tools _ _ _).1

/-- Under an oracle that requests tool calls on every round, the loop runs
the full remaining budget and exits `limitReached`. -/
theorem loopGo_always_tools (oracle : Nat → ModelResponse)
    (tools : List (String × ToolFn))
    (halways : ∀ k, ∃ rid items,
      oracle k = ModelResponse.ok rid (some items) ∧
      (parseOutput items).1 ≠ []) :
    ∀ (rem iter : Nat) (rid : Option String) (made : List ToolResult)
      (s : SessionState),
      (loopGo oracle tools rem iter rid made s).exit = LoopExit.limitReached ∧
      (loopGo oracle tools rem iter rid made s).iterations = iter + rem := by
  intro rem
  induction rem with
  | zero => exact fun iter rid made s => ⟨rfl, rfl⟩
  | succ m ih =>
      intro iter rid made s
      obtain ⟨rid', items, hok, hne⟩ := halways (iter + 1)
      simp only [loopGo, hok, hne, ne_eq, not_false_eq_true, if_true, ite_true]
      refine ⟨(ih _ _ _ _).1, ?_⟩
      rw [(ih _ _ _ _).2]
      omega

end Stateful

/-! ## Claims -/

/-- **C1.** For every sequence of streamed tool-call fragments carrying the
same call identifier, processed in arrival order by the delta accumulator:
the first fragment creates the entry with empty name and empty argument
text (and then applies its own updates to it); the accumulated name equals
the last non-empty name token delivered (empty when none was); the
accumulated argument text equals the concatenation of all argument-text
chunks in arrival order — which is exactly what a single fragment carrying
the whole argument string would have accumulated — so parsing it as JSON
yields the same value as for the whole string. -/
theorem c1_streaming_delta_accumulation
    (tid : String) (htid : tid ≠ "") (deltas : List Streaming.ToolCallDelta)
    (hid : ∀ d ∈ deltas, d.id = some tid) (hne : deltas ≠ []) :
    (∀ d : Streaming.ToolCallDelta, d.id = some tid →
        Streaming.processToolCallDelta [] d =
          [(tid, Streaming.updInfo ⟨tid, "", ""⟩ d.function)]) ∧
    dictGet? (deltas.foldl Streaming.processToolCallDelta []) tid =
      some ⟨tid, ((Streaming.namesOf deltas).getLast?).getD "",
        Streaming.concatChunks (Streaming.argsOf deltas)⟩ ∧
    Streaming.accumulatedArgs deltas tid =
      Streaming.concatChunks (Streaming.argsOf deltas) ∧
    dictGet? (Streaming.processToolCallDelta []
        ⟨some tid, some ⟨none,
          some (Streaming.concatChunks (Streaming.argsOf deltas))⟩⟩) tid =
      some ⟨tid, "", Streaming.concatChunks (Streaming.argsOf deltas)⟩ ∧
    Json.parse (Streaming.accumulatedArgs deltas tid) =
      Json.parse (Streaming.concatChunks (Streaming.argsOf deltas)) := by
  have hfold := Streaming.foldl_processDelta_empty tid htid deltas hid hne
  have hentry :
      deltas.foldl (fun i d => Streaming.updInfo i d.function)
          ⟨tid, "", ""⟩ =
        (⟨tid, ((Streaming.namesOf deltas).getLast?).getD "",
          Streaming.concatChunks (Streaming.argsOf deltas)⟩ :
            Streaming.CallInfo) := by
    have h1 := Streaming.foldl_updInfo_id deltas ⟨tid, "", ""⟩
    have h2 := Streaming.foldl_updInfo_name deltas ⟨tid, "", ""⟩
    have h3 := Streaming.foldl_updInfo_arguments deltas ⟨tid, "", ""⟩
    rw [Streaming.foldl_append_init, String.empty_append] at h3
    cases hq : deltas.foldl (fun i d => Streaming.updInfo i d.function)
        ⟨tid, "", ""⟩ with
    | mk i n a =>
        rw [hq] at h1 h2 h3
        simp at h1 h2 h3
        rw [h1, h2, h3]
  have hacc : Streaming.accumulatedArgs deltas tid =
      Streaming.concatChunks (Streaming.argsOf deltas) := by
    rw [Streaming.accumulatedArgs, hfold, hentry]
    simp [dictGet?]
  refine ⟨fun d hd => Streaming.processDelta_new tid htid d hd, ?_, hacc, ?_, by rw [hacc]⟩
  · rw [hfold, hentry]; simp [dictGet?]
  · rw [Streaming.processDelta_new tid htid _ rfl]
    by_cases hw : Streaming.concatChunks (Streaming.argsOf deltas) = "" <;>
      simp [Streaming.updInfo, dictGet?, hw, String.empty_append]

/-- Witness for C1 on the spec's worked example: three fragments for
identifier `t1` (a name token, then two argument chunks). -/
theorem c1_witness :
    dictGet? ([(⟨some "t1", some ⟨some "get_weather", none⟩⟩ :
                 Streaming.ToolCallDelta),
               ⟨some "t1", some ⟨none, some "\x7b\"location"⟩⟩,
               ⟨some "t1", some ⟨none, some "\":\"NYC\"\x7d"⟩⟩].foldl
        Streaming.processToolCallDelta []) "t1" =
      some ⟨"t1", "get_weather", "\x7b\"location\":\"NYC\"\x7d"⟩ := by
  have h := (c1_streaming_delta_accumulation "t1" (by decide)
    [⟨some "t1", some ⟨some "get_weather", none⟩⟩,
     ⟨some "t1", some ⟨none, some "\x7b\"location"⟩⟩,
     ⟨some "t1", some ⟨none, some "\":\"NYC\"\x7d"⟩⟩]
    (by decide) (by decide)).2.1
  rw [h]; decide

/-- **C2.** At finalization of a pending tool call whose name resolves, if
the accumulated argument text fails to parse as JSON, the outcome is a
failure result for that one call (carrying the parse-error description),
the finalization function returns normally (the cleared buffer), and every
other pending call's events are still emitted.  The stateful handler's
parse site behaves the same way: a failed parse yields a failure result for
that call. -/
theorem c2_parse_failure_is_local (tools : List (String × ToolFn))
    (pre post : Streaming.Buffer) (tid : String) (info : Streaming.CallInfo)
    (hres : (dictGet? tools info.name).isSome)
    (hparse : Json.parse info.arguments = none) :
    (Streaming.executePendingTools tools (pre ++ (tid, info) :: post)).1 =
      pre.flatMap (fun p => Streaming.eventsForCall tools p.1 p.2) ++
      ([Streaming.StreamEvent.toolCallEnd tid info.name info.arguments,
        Streaming.StreamEvent.toolResult tid info.name
          (.err .parseError)] ++
       post.flatMap (fun p => Streaming.eventsForCall tools p.1 p.2)) ∧
    (Streaming.executePendingTools tools (pre ++ (tid, info) :: post)).2 = [] ∧
    (∀ (k : Nat) (tc : Stateful.RawToolCall) (n aj : String)
        (cid : Option String),
      Stateful.extract tc = (some n, aj, cid) → n ≠ "" →
      (dictGet? tools n).isSome → aj ≠ "" → Json.parse aj = none →
      (Stateful.execOne tools k tc).1.outcome =
        Stateful.ExecOutcome.failed n .parseError) := by
  obtain ⟨fn, hfn⟩ := Option.isSome_iff_exists.mp hres
  refine ⟨?_, rfl, ?_⟩
  · rw [Streaming.executePendingTools]
    rw [List.flatMap_append, List.flatMap_cons]
    rw [Streaming.eventsForCall, hfn, hparse]
  · intro k tc n aj cid hex hn hres' hne hpar
    obtain ⟨fn', hfn'⟩ := Option.isSome_iff_exists.mp hres'
    simp only [Stateful.execOne, hex, hn, hfn', hne, hpar, if_false,
      ite_false]

/-- Witness for C2: two pending calls; the first resolves to `get_weather`
but its accumulated text `"{bad"` is not JSON — it yields a failure result
and the second call's events still follow. -/
theorem c2_witness :
    (Streaming.executePendingTools wtools
        ([] ++ ("t1", (⟨"t1", "get_weather", "\x7bbad"⟩ : Streaming.CallInfo)) ::
          [("t2", ⟨"t2", "ghost", "\x7b\x7d"⟩)])).1 =
      [Streaming.StreamEvent.toolCallEnd "t1" "get_weather" "\x7bbad",
       Streaming.StreamEvent.toolResult "t1" "get_weather"
         (.err .parseError),
       Streaming.StreamEvent.toolCallEnd "t2" "ghost" "\x7b\x7d"] := by
  have h := (c2_parse_failure_is_local wtools [] [("t2", ⟨"t2", "ghost", "\x7b\x7d"⟩)]
    "t1" ⟨"t1", "get_weather", "\x7bbad"⟩ (by decide) (by decide)).1
  rw [h]; decide

/-- Counterexample to **C7** as stated: a turn that has accumulated one
tool-call fragment and is then ended by the stream raising yields only the
`ERROR` event — the pending call is never finalized and the buffer is NOT
emptied, so its accumulated state carries over to the next turn. -/
theorem c7_counterexample :
    (Streaming.runTurn wtools []
        [⟨some "t1", some ⟨some "get_weather", none⟩⟩]
        (Streaming.StreamEnd.raised "connection reset")).2 =
      [("t1", ⟨"t1", "get_weather", ""⟩)] ∧
    (Streaming.runTurn wtools []
        [⟨some "t1", some ⟨some "get_weather", none⟩⟩]
        (Streaming.StreamEnd.raised "connection reset")).2 ≠ [] ∧
    (Streaming.runTurn wtools []
        [⟨some "t1", some ⟨some "get_weather", none⟩⟩]
        (Streaming.StreamEnd.raised "connection reset")).1 =
      [Streaming.StreamEvent.streamError "connection reset"] := by
  decide

/-- **C7 (amended).** Within one streamed turn from a fresh buffer, each
call identifier is finalized into at most one tool-call request.  On a turn
whose stream completes normally the pending buffer is emptied after all
pending calls are executed, so nothing carries over; but on a turn ended by
a mid-stream exception, pending execution is skipped (no call is
finalized), only the `ERROR` event is yielded, and the accumulated buffer
persists into the next turn. -/
theorem c7_turn_finalization (tools : List (String × ToolFn))
    (deltas : List Streaming.ToolCallDelta) :
    ((Streaming.runTurn tools [] deltas Streaming.StreamEnd.normal).2 = [] ∧
     (∀ tid, Streaming.countEnds
        (Streaming.runTurn tools [] deltas Streaming.StreamEnd.normal).1 tid
        ≤ 1)) ∧
    (∀ msg,
      (Streaming.runTurn tools [] deltas
        (Streaming.StreamEnd.raised msg)).1 =
        [Streaming.StreamEvent.streamError msg] ∧
      (Streaming.runTurn tools [] deltas
        (Streaming.StreamEnd.raised msg)).2 =
        deltas.foldl Streaming.processToolCallDelta [] ∧
      (∀ tid, Streaming.countEnds
        (Streaming.runTurn tools [] deltas
          (Streaming.StreamEnd.raised msg)).1 tid = 0)) := by
  have hnodup := Streaming.foldl_processDelta_nodup deltas [] (by simp)
  refine ⟨⟨?_, ?_⟩, fun msg => ⟨rfl, rfl, fun tid => by
    simp [Streaming.runTurn, Streaming.countEnds]⟩⟩
  · rw [Streaming.runTurn]
    split
    · next hemp => exact List.isEmpty_iff.mp hemp
    · rfl
  · intro tid
    rw [Streaming.runTurn]
    split
    · simp [Streaming.countEnds]
    · rw [Streaming.executePendingTools, Streaming.countEnds_append,
        Streaming.countEnds_flatMap]
      have h0 : Streaming.countEnds [Streaming.StreamEvent.streamEnd] tid
          = 0 := by simp [Streaming.countEnds]
      rw [h0]
      simpa using List.nodup_iff_count_le_one.mp hnodup tid

/-- Counterexample to **C3** as stated: submitting a batch of one pending
call whose name does not resolve to the streaming execution engine yields
zero results (no `TOOL_RESULT` event), not exactly one. -/
theorem c3_counterexample :
    ([("c1", (⟨"c1", "missing_tool", "\x7b\x7d"⟩ : Streaming.CallInfo))] :
        Streaming.Buffer).length = 1 ∧
    Streaming.countResults
      (Streaming.executePendingTools wtools
        [("c1", ⟨"c1", "missing_tool", "\x7b\x7d"⟩)]).1 = 0 := by
  decide

/-- **C3 (amended).** The stateful engine produces exactly N results for N
requests, and the result at each position is the per-call result of that
position's request alone — so a raising callable never causes any other
request in the batch to be skipped or to fail, whatever its identifier.
Every request carrying a truthy call identifier gets, at its own position,
a result carrying exactly that identifier (hence matching it exactly once
when identifiers are distinct).  The streaming engine instead produces one
result per pending call whose name resolves, and none for the others. -/
theorem c3_execute_many_results (tools : List (String × ToolFn))
    (tcs : List Stateful.RawToolCall) (s : Stateful.SessionState) :
    (Stateful.executeTools tools tcs s).1.length = tcs.length ∧
    (∀ (i : Nat) (tc : Stateful.RawToolCall), tcs[i]? = some tc →
      (Stateful.executeTools tools tcs s).1[i]? =
        some (Stateful.execOne tools i tc).1) ∧
    (∀ (i : Nat) (tc : Stateful.RawToolCall), tcs[i]? = some tc →
      pyTruthy (Stateful.extract tc).2.2 →
      ∃ r, (Stateful.executeTools tools tcs s).1[i]? = some r ∧
        r.call_id = ((Stateful.extract tc).2.2).getD "") ∧
    (∀ buf : Streaming.Buffer,
      Streaming.countResults (Streaming.executePendingTools tools buf).1 =
        (buf.filter (fun p => (dictGet? tools p.2.name).isSome)).length) := by
  have hres : (Stateful.executeTools tools tcs s).1 =
      Stateful.resultsFrom tools 0 tcs := by
    rw [Stateful.executeTools, Stateful.execToolsGo_results]
    simp
  have hget : ∀ (i : Nat) (tc : Stateful.RawToolCall), tcs[i]? = some tc →
      (Stateful.executeTools tools tcs s).1[i]? =
        some (Stateful.execOne tools i tc).1 := by
    intro i tc htc
    rw [hres, Stateful.resultsFrom_get?, htc]
    simp
  refine ⟨?_, hget, ?_, ?_⟩
  · rw [hres, Stateful.resultsFrom_length]
  · intro i tc htc htr
    exact ⟨(Stateful.execOne tools i tc).1, hget i tc htc,
      Stateful.execOne_callid_truthy tools i tc htr⟩
  · intro buf
    induction buf with
    | nil => simp [Streaming.executePendingTools, Streaming.countResults]
    | cons p rest ih =>
        simp only [Streaming.executePendingTools] at ih ⊢
        rw [List.flatMap_cons, Streaming.countResults_append,
          Streaming.countResults_eventsForCall, List.filter_cons]
        by_cases hp : (dictGet? tools p.2.name).isSome = true
        · simp [hp, ih, Nat.add_comm]
        · simp [hp, ih]

/-- Witness for C3 (amended): two identified calls, the second raising —
two results come back, the raising call's sibling-independent result
sitting at its own position with its originating identifier. -/
theorem c3_witness :
    (Stateful.executeTools wtools3 [tcCalc, tcBoom] sInit).1.length = 2 ∧
    (Stateful.executeTools wtools3 [tcCalc, tcBoom] sInit).1[1]? =
      some (Stateful.execOne wtools3 1 tcBoom).1 ∧
    (∃ r, (Stateful.executeTools wtools3 [tcCalc, tcBoom] sInit).1[1]? =
        some r ∧ r.call_id = "c2") := by
  have h := c3_execute_many_results wtools3 [tcCalc, tcBoom] sInit
  refine ⟨h.1, h.2.1 1 tcBoom (by decide), ?_⟩
  obtain ⟨r, hr, hid⟩ := h.2.2.1 1 tcBoom (by decide) (by decide)
  refine ⟨r, hr, ?_⟩
  rw [hid]
  decide

/-- Counterexample to **C4** as stated: the streaming engine, given a
pending call whose name does not resolve, emits only the `TOOL_CALL_END`
event — no failure result of any kind is returned for that call. -/
theorem c4_counterexample :
    (Streaming.executePendingTools wtools
        [("t9", ⟨"t9", "ghost", "\x7b\x7d"⟩)]).1 =
      [Streaming.StreamEvent.toolCallEnd "t9" "ghost" "\x7b\x7d"] := by
  decide

/-- **C4 (amended).** A tool-call request whose name does not resolve is a
local outcome, never an exception: `ToolHandler.execute_tool` returns the
`{"error": "Unknown tool: ..."}` dict, the stateful engine records an
unknown-tool failure result for that call, while the streaming engine emits
no result event at all for such a call (it is skipped silently). -/
theorem c4_unknown_tool_outcomes :
    (∀ (h : ToolCalling.ToolHandler) (name : String) (args : Json),
        dictGet? h.tools name = none →
        ToolCalling.executeTool h name args =
          ToolCalling.ExecToolRes.errorRes ("Unknown tool: " ++ name)) ∧
    (∀ (tools : List (String × ToolFn)) (k : Nat)
        (tc : Stateful.RawToolCall) (n : String),
        (Stateful.extract tc).1 = some n → n ≠ "" → dictGet? tools n = none →
        (Stateful.execOne tools k tc).1.outcome =
          Stateful.ExecOutcome.unknownTool (some n)) ∧
    (∀ (tools : List (String × ToolFn)) (tid : String)
        (info : Streaming.CallInfo),
        dictGet? tools info.name = none →
        Streaming.eventsForCall tools tid info =
          [Streaming.StreamEvent.toolCallEnd tid info.name
            info.arguments]) := by
  refine ⟨?_, ?_, ?_⟩
  · intro h name args hnone
    simp [ToolCalling.executeTool, hnone]
  · intro tools k tc n h1 hn hnone
    cases hex : Stateful.extract tc with
    | mk nm rest =>
        obtain ⟨aj, cid⟩ := rest
        rw [hex] at h1
        simp only at h1
        subst h1
        simp [Stateful.execOne, hex, hn, hnone]
  · intro tools tid info hnone
    simp [Streaming.eventsForCall, hnone]

/-- Witness for C4 (amended) at concrete unresolvable requests. -/
theorem c4_witness :
    ToolCalling.executeTool ⟨[], []⟩ "ghost" (Json.obj []) =
      ToolCalling.ExecToolRes.errorRes ("Unknown tool: " ++ "ghost") ∧
    (Stateful.execOne ([] : List (String × ToolFn)) 0 tcGhost).1.outcome =
      Stateful.ExecOutcome.unknownTool (some "ghost") ∧
    Streaming.eventsForCall ([] : List (String × ToolFn)) "t1"
        ⟨"t1", "ghost", "\x7b\x7d"⟩ =
      [Streaming.StreamEvent.toolCallEnd "t1" "ghost" "\x7b\x7d"] :=
  ⟨c4_unknown_tool_outcomes.1 ⟨[], []⟩ "ghost" (Json.obj []) rfl,
   c4_unknown_tool_outcomes.2.1 [] 0 tcGhost "ghost" rfl (by decide) rfl,
   c4_unknown_tool_outcomes.2.2 [] "t1" ⟨"t1", "ghost", "\x7b\x7d"⟩ rfl⟩

/-- **C5.** A registered callable that raises is caught and converted to a
failure result carrying the exception's message, in all three handlers, and
sibling executions in the same batch are unaffected (the stateful results
are an elementwise map over the requests). -/
theorem c5_raising_callable_contained (tools : List (String × ToolFn))
    (n : String) (fn : ToolFn) (args : Json) (msg : String)
    (hfn : dictGet? tools n = some fn)
    (hraise : fn args = Except.error msg) :
    (∀ schemas, ToolCalling.executeTool ⟨tools, schemas⟩ n args =
        ToolCalling.ExecToolRes.errorRes ("Tool execution failed: " ++ msg)) ∧
    (∀ (k : Nat) (tc : Stateful.RawToolCall) (aj : String)
        (cid : Option String),
        Stateful.extract tc = (some n, aj, cid) → n ≠ "" → aj ≠ "" →
        Json.parse aj = some args →
        (Stateful.execOne tools k tc).1.outcome =
          Stateful.ExecOutcome.failed n (.raised msg)) ∧
    (∀ (tcs : List Stateful.RawToolCall) (s : Stateful.SessionState),
        (∀ tc ∈ tcs, pyTruthy (Stateful.extract tc).2.2) →
        (Stateful.executeTools tools tcs s).1 =
          tcs.map (fun tc => (Stateful.execOne tools 0 tc).1)) ∧
    (∀ (tid : String) (info : Streaming.CallInfo), info.name = n →
        Json.parse info.arguments = some args →
        Streaming.eventsForCall tools tid info =
          [Streaming.StreamEvent.toolCallEnd tid n info.arguments,
           Streaming.StreamEvent.toolResult tid n (.err (.raised msg))]) := by
  refine ⟨?_, ?_, ?_, ?_⟩
  · intro schemas
    simp [ToolCalling.executeTool, hfn, hraise]
  · intro k tc aj cid hex hn hne hpar
    simp [Stateful.execOne, hex, hn, hfn, hne, hpar, hraise]
  · intro tcs s hids
    rw [Stateful.executeTools, Stateful.execToolsGo_results]
    simpa using Stateful.resultsFrom_map tools tcs 0 hids
  · intro tid info hname hpar
    simp [Streaming.eventsForCall, hname, hfn, hpar, hraise]

/-- Witness for C5: the raising `boom` yields a failure result carrying
`"division by zero"` and its sibling `calculate` still executes. -/
theorem c5_witness :
    ToolCalling.executeTool ⟨wtools3, []⟩ "boom" (Json.obj []) =
      ToolCalling.ExecToolRes.errorRes
        ("Tool execution failed: " ++ "division by zero") ∧
    (Stateful.executeTools wtools3 [tcBoom, tcCalc] sInit).1 =
      [tcBoom, tcCalc].map (fun tc => (Stateful.execOne wtools3 0 tc).1) := by
  have h := c5_raising_callable_contained wtools3 "boom" wfRaise
    (Json.obj []) "division by zero" rfl rfl
  exact ⟨h.1 [], h.2.2.1 [tcBoom, tcCalc] sInit (by decide)⟩

/-- **C6.** Under an oracle whose model requests tool calls on every round,
`process_message` with a configured bound performs exactly that many
model-call rounds and then stops: the loop exits in the (non-exceptional)
iteration-limit state, never executing one round beyond the bound. -/
theorem c6_iteration_budget (oracle : Nat → Stateful.ModelResponse)
    (tools : List (String × ToolFn)) (session : Stateful.SessionState)
    (userMsg : String) (maxIter : Nat)
    (halways : ∀ k, ∃ rid items,
      oracle k = Stateful.ModelResponse.ok rid (some items) ∧
      (Stateful.parseOutput items).1 ≠ []) :
    (Stateful.processMessage oracle tools session userMsg maxIter).1.iterations
      = maxIter ∧
    (∀ (iter : Nat) (rid : Option String) (made : List Stateful.ToolResult)
        (s : Stateful.SessionState),
      (Stateful.loopGo oracle tools maxIter iter rid made s).exit =
        Stateful.LoopExit.limitReached ∧
      (Stateful.loopGo oracle tools maxIter iter rid made s).iterations =
        iter + maxIter) := by
  have h := Stateful.loopGo_always_tools oracle tools halways
  refine ⟨?_, fun iter rid made s => h maxIter iter rid made s⟩
  simp only [Stateful.processMessage]
  rw [(h maxIter 0 _ _ _).2]
  omega

/-- Witness for C6: a three-round budget against an always-tool oracle runs
exactly three rounds. -/
theorem c6_witness :
    (Stateful.processMessage alwaysToolOracle wtools
        (Stateful.SessionState.init "s") "hi" 3).1.iterations = 3 :=
  (c6_iteration_budget alwaysToolOracle wtools
    (Stateful.SessionState.init "s") "hi" 3
    (fun _ => ⟨some "resp", [toolItem], rfl, by decide⟩)).1

/-- **C8.** Registering a callable under an already-present name raises no
error and silently overwrites: resolution after any registration returns
the just-registered callable (last-registration-wins), and execution of the
name runs it. -/
theorem c8_register_overwrites :
    (∀ (h : Streaming.StreamingToolHandler) (n : String) (g : ToolFn)
        (s : Json),
        dictGet? (Streaming.registerTool h n g s).tools n = some g) ∧
    (∀ (h : ToolCalling.ToolHandler) (g : ToolFn) (s : Json) (n : String),
        ToolCalling.schemaName? s = some n →
        ∃ h', ToolCalling.registerTool h g s = some h' ∧
          dictGet? h'.tools n = some g ∧
          ∀ args, ToolCalling.executeTool h' n args =
            (match g args with
             | Except.ok r => ToolCalling.ExecToolRes.resultRes r
             | Except.error e =>
                 ToolCalling.ExecToolRes.errorRes
                   ("Tool execution failed: " ++ e))) := by
  constructor
  · intro h n g s
    exact dictGet?_dictSet_self h.tools n g
  · intro h g s n hname
    refine ⟨⟨dictSet h.tools n g, h.tool_schemas ++ [s]⟩, ?_,
      dictGet?_dictSet_self _ _ _, ?_⟩
    · rw [ToolCalling.registerTool, hname]
      rfl
    · intro args
      simp only [ToolCalling.executeTool, dictGet?_dictSet_self]

/-- Witness for C8: re-registering `calculate` with the raising callable
makes every later execution of `calculate` run the new callable. -/
theorem c8_witness :
    ∃ h', ToolCalling.registerTool hCalc wfRaise calcSchema = some h' ∧
      dictGet? h'.tools "calculate" = some wfRaise ∧
      ∀ args, ToolCalling.executeTool h' "calculate" args =
        ToolCalling.ExecToolRes.errorRes
          ("Tool execution failed: " ++ "division by zero") :=
  c8_register_overwrites.2 hCalc wfRaise calcSchema "calculate" (by decide)

/-- Counterexample to **C9** as stated: the stateful handler stores a
flattened conversion of the registered schema, so resolving the name yields
a schema, but not one equal to the registered `S`. -/
theorem c9_counterexample :
    (Stateful.findSchema
        (Stateful.registerTool Stateful.StatefulHandler.init "get_user_info"
          wfConst userInfoSchema) "get_user_info").isSome = true ∧
    Stateful.findSchema
        (Stateful.registerTool Stateful.StatefulHandler.init "get_user_info"
          wfConst userInfoSchema) "get_user_info" ≠ some userInfoSchema := by
  decide

/-- **C9 (amended).** In `ToolHandler` (03), registering a schema `S`
declaring name `T`, when no stored schema already declares `T`, and then
resolving `T` from the stored schema list returns `S` exactly.  (In the
stateful handler the stored schema is the flattened conversion, not `S`.) -/
theorem c9_round_trip_toolhandler (h : ToolCalling.ToolHandler)
    (fn : ToolFn) (schema : Json) (name : String)
    (hname : ToolCalling.schemaName? schema = some name)
    (hfresh : ∀ s ∈ h.tool_schemas,
      ¬ ToolCalling.schemaName? s = some name) :
    ∃ h', ToolCalling.registerTool h fn schema = some h' ∧
      ToolCalling.findSchema h' name = some schema := by
  refine ⟨⟨dictSet h.tools name fn, h.tool_schemas ++ [schema]⟩, ?_, ?_⟩
  · rw [ToolCalling.registerTool, hname]
    rfl
  · rw [ToolCalling.findSchema]
    have key : ∀ l : List Json,
        (∀ s ∈ l, ¬ ToolCalling.schemaName? s = some name) →
        (l ++ [schema]).find?
          (fun s => ToolCalling.schemaName? s = some name) = some schema := by
      intro l
      induction l with
      | nil => intro _; simp [List.find?, hname]
      | cons a l ih =>
          intro hl
          rw [List.cons_append, List.find?_cons_of_neg, ih]
          · exact fun x hx => hl x (List.mem_cons_of_mem a hx)
          · simp [hl a (List.mem_cons_self a l)]
    exact key h.tool_schemas hfresh

/-- Witness for C9 (amended): a fresh handler round-trips the `calculate`
schema exactly. -/
theorem c9_witness :
    ∃ h', ToolCalling.registerTool ToolCalling.ToolHandler.init wfCalc
        calcSchema = some h' ∧
      ToolCalling.findSchema h' "calculate" = some calcSchema :=
  c9_round_trip_toolhandler ToolCalling.ToolHandler.init wfCalc calcSchema
    "calculate" (by decide) (fun s hs => absurd hs (List.not_mem_nil s))

/-- **C10.** Every invocation of `process_message` appends exactly two
entries to the session's message list — the user message, then one
assistant message carrying the returned response — leaving all prior
messages intact, for every oracle behaviour (exceptions and budget
exhaustion included); when the first model call raises, the assistant entry
carries the error text. -/
theorem c10_two_messages_appended (oracle : Nat → Stateful.ModelResponse)
    (tools : List (String × ToolFn)) (session : Stateful.SessionState)
    (userMsg : String) (maxIter : Nat) :
    (∃ tcOpt,
      (Stateful.processMessage oracle tools session userMsg
          maxIter).2.messages =
        session.messages ++
          [⟨"user", userMsg, none⟩,
           ⟨"assistant",
            (Stateful.processMessage oracle tools session userMsg
                maxIter).1.response, tcOpt⟩]) ∧
    (∀ e, oracle 1 = Stateful.ModelResponse.raises e → 0 < maxIter →
      (Stateful.processMessage oracle tools session userMsg
          maxIter).1.response = "Error processing message: " ++ e) := by
  constructor
  · refine ⟨(if (Stateful.loopGo oracle tools maxIter 0
        session.last_response_id []
        { session with
          messages := session.messages ++ [⟨"user", userMsg, none⟩] }
        ).toolCallsMade ≠ [] then
        some (Stateful.loopGo oracle tools maxIter 0
          session.last_response_id []
          { session with
            messages := session.messages ++ [⟨"user", userMsg, none⟩] }
          ).toolCallsMade
      else none), ?_⟩
    simp only [Stateful.processMessage]
    rw [Stateful.loopGo_messages]
    rw [List.append_assoc]
    rfl
  · intro e he hpos
    obtain ⟨m, rfl⟩ : ∃ m, maxIter = m + 1 := ⟨maxIter - 1, by omega⟩
    simp [Stateful.processMessage, Stateful.loopGo, he,
      Stateful.fullResponseOf]

/-- Witness for the error clause of C10: with an oracle that raises on the
first round, the assistant-visible response carries the error text. -/
theorem c10_witness :
    (Stateful.processMessage (fun _ => Stateful.ModelResponse.raises "boom")
        wtools sInit "hello" 10).1.response =
      "Error processing message: " ++ "boom" :=
  (c10_two_messages_appended (fun _ => Stateful.ModelResponse.raises "boom")
    wtools sInit "hello" 10).2 "boom" rfl (by decide)
